import Mathlib

/-!
# LINE-MOD detection cell (`src/linemod_detect.cpp`)

A shallow embedding of `ecto_linemod::Detector` (`parameter_callback`, `process`) and of
`drawResponse`, followed by the properties proved about them.

Modelling conventions.

* A `cv::Mat` is the list of its rows.  Images hold pixels (a pixel is the list of its
  channel values); pose matrices hold scalars of a type `α` on which only `+`, `*`, unary
  `-` and `0` are used (the theorems about the pose arithmetic take `α` to be a ring, i.e.
  `double` is idealised as exact arithmetic).
* A `std::map<std::string, V>` is an association list with unique keys; `std::map::at`
  raises `std::out_of_range`, `operator[]` default-inserts.
* A C++ exception or an access without defined behaviour ends the run: every operation that
  can do so returns `Except Fault _`, and the state reached so far is returned alongside,
  because the members are updated in place.
* The matching engine `cv::linemod::Detector` and `cv::pyrDown` are library code: the engine
  is the registry of template pyramids per class, its `match` algorithm and the smoothing
  filter of `pyrDown` are parameters (`matcher`, `smooth`).
* The attachment reader `Document::get_attachment` is declared outside the sources at hand; a
  document carries each attachment as an `Option`, `none` standing for an attachment that
  cannot be read.
-/

namespace Linemod

/-! ## Faults and maps -/

/-- The ways a run can end abnormally. -/
inductive Fault where
  /-- The exception `std::out_of_range`, raised by `std::map::at` on a missing key. -/
  | out_of_range
  /-- The exception `cv::Exception`, raised by a failed `CV_Assert` inside OpenCV. -/
  | cv_error
  /-- The exception raised by `Document::get_attachment` on a missing or malformed attachment. -/
  | load_error
  /-- An unchecked out-of-bounds access (`std::vector::operator[]`, `cv::Mat::at`, a C array):
  the language defines no behaviour, in particular no exception and no termination. -/
  | undefined
  deriving DecidableEq, Repr

/-- The `ecto::ReturnCode` values a cell can return. -/
inductive ReturnCode where
  | OK
  | QUIT
  deriving DecidableEq, Repr

/-- Lookup in a `std::map` (`find`). -/
def mapFind {β : Type} : List (String × β) → String → Option β
  | [], _ => none
  | (k, v) :: rest, key => if k = key then some v else mapFind rest key

/-- Assignment `m[key] = v` in a `std::map`: replaces the value of an existing key, inserts
otherwise. -/
def mapSet {β : Type} : List (String × β) → String → β → List (String × β)
  | [], key, v => [(key, v)]
  | (k, w) :: rest, key, v => if k = key then (k, v) :: rest else (k, w) :: mapSet rest key v

/-- The checked lookup `m.at(key)`. -/
def mapAt {β : Type} (m : List (String × β)) (key : String) : Except Fault β :=
  match mapFind m key with
  | some v => .ok v
  | none => .error .out_of_range

/-- The unchecked `v[i]` of a `std::vector` with an `int` index (converted to `size_t`, so a
negative index is out of bounds as well). -/
def vecIndex {β : Type} (v : List β) (i : Int) : Except Fault β :=
  if 0 ≤ i then
    match v[i.toNat]? with
    | some x => .ok x
    | none => .error .undefined
  else .error .undefined

/-! ## Matrices and images -/

/-- A `cv::Mat`, as the list of its rows. -/
abbrev Mat (α : Type) := List (List α)

/-- The member `rows` of a `cv::Mat`. -/
def Mat.rows {α : Type} (m : Mat α) : Nat := m.length

/-- The member `cols` of a `cv::Mat`. -/
def Mat.cols {α : Type} (m : Mat α) : Nat :=
  match m with
  | [] => 0
  | r :: _ => r.length

/-- Column `j` of a matrix. -/
def Mat.col {α : Type} [Zero α] (m : Mat α) (j : Nat) : List α := m.map (fun r => r.getD j 0)

/-- The inner product accumulated by the matrix product. -/
def dot {α : Type} [Add α] [Mul α] [Zero α] (r c : List α) : α :=
  (List.zipWith (fun a b => a * b) r c).foldl (fun s p => s + p) 0

/-- The matrix product `a * b`; OpenCV asserts `a.cols == b.rows`. -/
def Mat.mul {α : Type} [Add α] [Mul α] [Zero α] (a b : Mat α) : Except Fault (Mat α) :=
  if Mat.cols a = Mat.rows b then
    .ok (a.map fun r => (List.range (Mat.cols b)).map fun j => dot r (Mat.col b j))
  else .error .cv_error

/-- Reading `m.at<double>(i, j)`; `none` when the entry does not exist. -/
def Mat.entry {α : Type} (m : Mat α) (i j : Nat) : Option α :=
  match m[i]? with
  | some r => r[j]?
  | none => none

/-- The statement `m.at<double>(i, j) = -m.at<double>(i, j)`; the access is unchecked. -/
def negateAt {α : Type} [Neg α] (m : Mat α) (i j : Nat) : Except Fault (Mat α) :=
  match m[i]? with
  | none => .error .undefined
  | some r =>
    match r[j]? with
    | none => .error .undefined
    | some v => .ok (m.set i (r.set j (-v)))

/-- A pixel: the list of its channel values. -/
abbrev Pixel := List Nat

/-- An image (`cv::Mat` of pixels). -/
abbrev Image := Mat Pixel

/-- The rows `a ≤ i < b` of an image: `m.rowRange(a, b)`. -/
def rowRange (m : Image) (a b : Nat) : Image := (m.drop a).take (b - a)

/-- The result of `cv::pyrDown(src, dst)` with the default destination size
`((cols+1)/2, (rows+1)/2)`: destination pixel `(y, x)` is the Gaussian-smoothed source at
`(2y, 2x)`; the smoothing filter is the parameter `smooth`. -/
def pyrDown (smooth : Image → Nat → Nat → Pixel) (src : Image) : Image :=
  (List.range ((Mat.rows src + 1) / 2)).map fun y =>
    (List.range ((Mat.cols src + 1) / 2)).map fun x => smooth src (2 * y) (2 * x)

/-- The result of `src.copyTo(dst)`: a deep copy. -/
def copyTo (src : Image) : Image := src

/-! ## The template engine `cv::linemod::Detector` -/

/-- The structure `cv::linemod::Feature`. -/
structure Feature where
  x : Int
  y : Int
  label : Int
  deriving DecidableEq, Repr

/-- The structure `cv::linemod::Template`. -/
structure Template where
  width : Int
  height : Int
  pyramid_level : Int
  features : List Feature
  deriving DecidableEq, Repr

/-- A template pyramid: the `std::vector<Template>` registered as one template of a class. -/
abbrev TemplatePyramid := List Template

/-- Modelled from the spec: the template engine (`cv::linemod::Detector`, OpenCV), which
"stores per-class template collections"; its modalities and pyramid steps are kept because
`process` reads them. -/
structure LinemodDetector where
  modalities : List String
  T_at_level : List Int
  class_templates : List (String × List TemplatePyramid)
  deriving DecidableEq, Repr

/-- Modelled from the spec: the engine returned by `cv::linemod::getDefaultLINEMOD()`, with the
two modalities colour gradient and depth normal, pyramid steps 5 and 8, and no class. -/
def getDefaultLINEMOD : LinemodDetector :=
  { modalities := ["ColorGradient", "DepthNormal"], T_at_level := [5, 8], class_templates := [] }

/-- Modelled from the spec: `classIds()`, the classes the engine holds. -/
def LinemodDetector.classIds (d : LinemodDetector) : List String := d.class_templates.map Prod.fst

/-- Modelled from the spec: `numTemplates()`, the number of templates over all classes. -/
def LinemodDetector.numTemplates (d : LinemodDetector) : Nat :=
  (d.class_templates.map fun kv => kv.2.length).sum

/-- Modelled from the spec: the template collection of a class (empty for an unknown class). -/
def LinemodDetector.templatesOf (d : LinemodDetector) (class_id : String) : List TemplatePyramid :=
  (mapFind d.class_templates class_id).getD []

/-- Modelled from the spec: `getTemplates(classId, templateIndex)`; OpenCV asserts that the
class and the index exist. -/
def LinemodDetector.getTemplates (d : LinemodDetector) (class_id : String) (template_id : Int) :
    Except Fault TemplatePyramid :=
  match mapFind d.class_templates class_id with
  | none => .error .cv_error
  | some pyramids =>
    if 0 ≤ template_id then
      match pyramids[template_id.toNat]? with
      | some p => .ok p
      | none => .error .cv_error
    else .error .cv_error

/-- Modelled from the spec: `addSyntheticTemplate(templates, classId)` ("registerTemplate"):
the pyramid is appended to the class's collection and its index, the previous count, is
returned. -/
def LinemodDetector.addSyntheticTemplate (d : LinemodDetector) (templates : TemplatePyramid)
    (class_id : String) : LinemodDetector × Int :=
  let template_pyramids := d.templatesOf class_id
  ({ d with class_templates := mapSet d.class_templates class_id (template_pyramids ++ [templates]) },
    (template_pyramids.length : Int))

/-- Modelled from the spec: `getT(pyramid_level)`, an unchecked vector access. -/
def LinemodDetector.getT (d : LinemodDetector) (pyramid_level : Nat) : Except Fault Int :=
  match d.T_at_level[pyramid_level]? with
  | some t => .ok t
  | none => .error .undefined

/-- The structure `cv::linemod::Match`. -/
structure Match where
  x : Int
  y : Int
  similarity : Rat
  class_id : String
  template_id : Int
  deriving DecidableEq, Repr

/-! ## The cell -/

/-- The fields of `PoseResult` that `process` sets. -/
structure PoseResult (α : Type) where
  R : Mat α
  T : Mat α
  object_id : String
  deriving DecidableEq, Repr

/-- The members of `ecto_linemod::Detector` (the inputs `color_`, `depth_` and the output
`pose_results_` are arguments of `process`). -/
structure Detector (α : Type) where
  detector_ : LinemodDetector
  threshold_ : Rat
  visualize_ : Bool
  Rs_ : List (String × List (Mat α))
  Ts_ : List (String × List (Mat α))
  deriving DecidableEq, Repr

/-- A document of the model store: the field `object_id` and the three attachments, `none`
when `get_attachment` cannot read one. -/
structure Document (α : Type) where
  object_id : String
  detector : Option LinemodDetector
  Rs : Option (List (Mat α))
  Ts : Option (List (Mat α))
  deriving DecidableEq, Repr

/-! ### `parameter_callback` -/

/-- The loop `for (template_id = 0; template_id < detector.numTemplates(); ++template_id)` of
`parameter_callback`, over the indices still to visit. -/
def registerLoop (detector : LinemodDetector) (object_id_in_db object_id : String) :
    List Nat → LinemodDetector → LinemodDetector × Except Fault Unit
  | [], detector_ => (detector_, .ok ())
  | template_id :: rest, detector_ =>
    match detector.getTemplates object_id_in_db (template_id : Int) with
    | .error e => (detector_, .error e)
    | .ok templates =>
      registerLoop detector object_id_in_db object_id rest
        (detector_.addSyntheticTemplate templates object_id).1

/-- Modelled from the spec: `Document::get_attachment<T>(name, value)`, whose specializations
for `cv::linemod::Detector` and `std::vector<cv::Mat>` are declared in `db_linemod.h`, which
is not among the sources. A readable attachment is deserialized and stored in `value`,
replacing what it held; "a missing or malformed attachment fails the load", and `value` is
then left as it was. -/
def get_attachment {β : Type} (attachment : Option β) (value : β) : β × Except Fault Unit :=
  match attachment with
  | some v => (v, .ok ())
  | none => (value, .error .load_error)

/-- The reference `m[key]` of a `std::map` of vectors: the stored vector, or the empty vector
that `operator[]` inserts for a missing key. -/
def mapIndex {β : Type} (m : List (String × List β)) (key : String) : List β :=
  (mapFind m key).getD []

/-- The body of the `BOOST_FOREACH` of `parameter_callback` for one document. -/
def loadDocument {α : Type} (st : Detector α) (document : Document α) :
    Detector α × Except Fault Unit :=
  let object_id := document.object_id
  match get_attachment document.detector ⟨[], [], []⟩ with
  | (_, .error e) => (st, .error e)
  | (detector, .ok ()) =>
    match detector.classIds with
    | [] => (st, .error .undefined)
    | object_id_in_db :: _ =>
      match registerLoop detector object_id_in_db object_id (List.range detector.numTemplates)
          st.detector_ with
      | (detector_, .error e) => ({ st with detector_ := detector_ }, .error e)
      | (detector_, .ok ()) =>
        let st1 := { st with detector_ := detector_ }
        match get_attachment document.Rs (mapIndex st1.Rs_ object_id) with
        | (rotations, .error e) =>
          ({ st1 with Rs_ := mapSet st1.Rs_ object_id rotations }, .error e)
        | (rotations, .ok ()) =>
          let st2 := { st1 with Rs_ := mapSet st1.Rs_ object_id rotations }
          match get_attachment document.Ts (mapIndex st2.Ts_ object_id) with
          | (translations, .error e) =>
            ({ st2 with Ts_ := mapSet st2.Ts_ object_id translations }, .error e)
          | (translations, .ok ()) =>
            ({ st2 with Ts_ := mapSet st2.Ts_ object_id translations }, .ok ())

/-- The `BOOST_FOREACH` of `parameter_callback`: documents are loaded in order, an exception
ends the loop. -/
def loadDocuments {α : Type} : Detector α → List (Document α) → Detector α × Except Fault Unit
  | st, [] => (st, .ok ())
  | st, document :: rest =>
    match loadDocument st document with
    | (st1, .error e) => (st1, .error e)
    | (st1, .ok ()) => loadDocuments st1 rest

/-- The method `Detector::parameter_callback`. -/
def parameter_callback {α : Type} (st : Detector α) (db_documents : List (Document α)) :
    Detector α × Except Fault Unit :=
  loadDocuments { st with detector_ := getDefaultLINEMOD } db_documents

/-! ### `drawResponse` -/

/-- A colour `CV_RGB(r, g, b)`. -/
structure Color where
  r : Nat
  g : Nat
  b : Nat
  deriving DecidableEq, Repr

/-- One call `cv::circle(dst, center, radius, color)`. -/
structure Circle where
  center : Int × Int
  radius : Int
  color : Color
  deriving DecidableEq, Repr

/-- The table `COLORS` of `drawResponse`. -/
def COLORS : List Color :=
  [⟨0, 0, 255⟩, ⟨0, 255, 0⟩, ⟨255, 255, 0⟩, ⟨255, 140, 0⟩, ⟨255, 0, 0⟩]

/-- The outer loop of `drawResponse` over the modalities still to draw; the result is the
sequence of circles drawn on `dst`. `COLORS[m]` and `templates[m]` are unchecked. -/
def drawModalities (templates : List Template) (offset : Int × Int) (T : Int) :
    List Nat → Except Fault (List Circle)
  | [] => .ok []
  | m :: rest =>
    match COLORS[m]?, templates[m]? with
    | some color, some t =>
      match drawModalities templates offset T rest with
      | .error e => .error e
      | .ok more =>
        .ok (t.features.map (fun f => ⟨(f.x + offset.1, f.y + offset.2), Int.tdiv T 2, color⟩) ++ more)
    | _, _ => .error .undefined

/-- The function `drawResponse`. -/
def drawResponse (templates : List Template) (num_modalities : Nat) (offset : Int × Int)
    (T : Int) : Except Fault (List Circle) :=
  drawModalities templates offset T (List.range num_modalities)

/-! ### `process` -/

/-- What a run of `process` leaves behind: the value returned or the fault that ended it, the
output `pose_results_`, the calls made to the engine's `match` (sources and threshold), the
circles drawn on `display` and whether the window was shown. -/
structure Outcome (α : Type) where
  ret : Except Fault ReturnCode
  pose_results : List (PoseResult α)
  match_calls : List (List Image × Rat)
  circles : List Circle
  shown : Bool

/-- The preprocessing of the colour frame at the start of `process`. -/
def preprocess (smooth : Image → Nat → Nat → Pixel) (color_ : Image) : Image :=
  if Mat.rows color_ > 960 then pyrDown smooth (rowRange color_ 0 960) else copyTo color_

/-- The block "Fill the Pose object" of `process`, for one match. -/
def synthesize {α : Type} [Add α] [Mul α] [Neg α] [Zero α] (st : Detector α) (m : Match) :
    Except Fault (PoseResult α) := do
  let rotations ← mapAt st.Rs_ m.class_id
  let R ← vecIndex rotations m.template_id
  let translations ← mapAt st.Ts_ m.class_id
  let T ← vecIndex translations m.template_id
  let T ← Mat.mul R T
  let T ← negateAt T 1 0
  let T ← negateAt T 2 0
  pure { R := R, T := T, object_id := m.class_id }

/-- The drawing done for one match: nothing unless `visualize_` is set. -/
def visualizeMatch {α : Type} (st : Detector α) (num_modalities : Nat) (m : Match)
    (templates : List Template) : Except Fault (List Circle) :=
  if st.visualize_ then
    match st.detector_.getT 0 with
    | .error e => .error e
    | .ok T => drawResponse templates num_modalities (m.x, m.y) T
  else .ok []

/-- The `BOOST_FOREACH` over the matches in `process`, from the results and circles
accumulated so far. -/
def matchLoop {α : Type} [Add α] [Mul α] [Neg α] [Zero α] (st : Detector α)
    (num_modalities : Nat) :
    List Match → List (PoseResult α) → List Circle →
      Except Fault Unit × List (PoseResult α) × List Circle
  | [], pose_results, circles => (.ok (), pose_results, circles)
  | m :: rest, pose_results, circles =>
    match st.detector_.getTemplates m.class_id m.template_id with
    | .error e => (.error e, pose_results, circles)
    | .ok templates =>
      match visualizeMatch st num_modalities m templates with
      | .error e => (.error e, pose_results, circles)
      | .ok drawn =>
        match synthesize st m with
        | .error e => (.error e, pose_results, circles ++ drawn)
        | .ok pose_result =>
          matchLoop st num_modalities rest (pose_results ++ [pose_result]) (circles ++ drawn)

/-- The statement `pose_results_->clear()`. -/
def clear {β : Type} (_v : List β) : List β := []

/-- The method `Detector::process`. `matcher` is the engine's `match` operation. -/
def process {α : Type} [Add α] [Mul α] [Neg α] [Zero α]
    (smooth : Image → Nat → Nat → Pixel)
    (matcher : LinemodDetector → List Image → Rat → List Match)
    (st : Detector α) (color_ depth_ : Image) (pose_results_ : List (PoseResult α)) :
    Outcome α :=
  let color := preprocess smooth color_
  let pose_results := clear pose_results_
  if st.detector_.classIds.isEmpty then
    { ret := .ok .OK, pose_results := pose_results, match_calls := [], circles := [],
      shown := false }
  else
    let sources := [color, depth_]
    let matches_ := matcher st.detector_ sources st.threshold_
    let num_modalities := st.detector_.modalities.length
    match matchLoop st num_modalities matches_ pose_results [] with
    | (.error e, results, circles) =>
      { ret := .error e, pose_results := results,
        match_calls := [(sources, st.threshold_)], circles := circles, shown := false }
    | (.ok (), results, circles) =>
      { ret := .ok .OK, pose_results := results,
        match_calls := [(sources, st.threshold_)], circles := circles,
        shown := st.visualize_ }

/-- The colour frame handed to the engine's `match`, when it was called. -/
def Outcome.matcherColor {α : Type} (o : Outcome α) : Option Image :=
  match o.match_calls with
  | (color :: _, _) :: _ => some color
  | _ => none

/-- The depth image handed to the engine's `match`, when it was called. -/
def Outcome.matcherDepth {α : Type} (o : Outcome α) : Option Image :=
  match o.match_calls with
  | (_ :: depth :: _, _) :: _ => some depth
  | _ => none

/-! ## Notions of the specification -/

/-- The pose-table entries of a match: `R = Rotations[classId][templateIndex]` and
`T = Translations[classId][templateIndex]`, when both exist. -/
def lookupPose {α : Type} (st : Detector α) (m : Match) : Option (Mat α × Mat α) :=
  if m.template_id < 0 then none
  else
    match mapFind st.Rs_ m.class_id, mapFind st.Ts_ m.class_id with
    | some rotations, some translations =>
      match rotations[m.template_id.toNat]?, translations[m.template_id.toNat]? with
      | some R, some T => some (R, T)
      | _, _ => none
    | _, _ => none

/-- A matrix has `r` rows of `c` entries each. -/
def IsShape {α : Type} (r c : Nat) (M : Mat α) : Prop := M.length = r ∧ ∀ row ∈ M, row.length = c

/-- Entry `(i, j)` of a matrix, `0` outside it. -/
def Mat.entryD {α : Type} [Zero α] (M : Mat α) (i j : Nat) : α := (Mat.entry M i j).getD 0

/-- Component `i` of the product `R · T` of a 3x3 matrix and a 3x1 vector. -/
def rowTimes {α : Type} [Add α] [Mul α] [Zero α] (R T : Mat α) (i : Nat) : α :=
  Mat.entryD R i 0 * Mat.entryD T 0 0 + Mat.entryD R i 1 * Mat.entryD T 1 0
    + Mat.entryD R i 2 * Mat.entryD T 2 0

/-- The pose of section 4.3 of the specification: `T' = R · T` with the components at index 1
and 2 negated and index 0 unchanged, `objectId = classId`, `rotation = R`. -/
def specPose {α : Type} [Add α] [Mul α] [Neg α] [Zero α] (classId : String) (R T : Mat α) :
    PoseResult α :=
  { R := R, T := [[rowTimes R T 0], [-(rowTimes R T 1)], [-(rowTimes R T 2)]],
    object_id := classId }

/-- The match refers to a template the engine holds. -/
def Holds (d : LinemodDetector) (m : Match) : Prop :=
  ∃ templates, d.getTemplates m.class_id m.template_id = .ok templates

/-- The engine is one `drawResponse` can render: at most five modalities (the size of
`COLORS`), a pyramid step for level 0, and one template per modality in every pyramid. -/
def DrawSafe (d : LinemodDetector) : Prop :=
  d.modalities.length ≤ 5 ∧ d.T_at_level ≠ [] ∧
    ∀ kv ∈ d.class_templates, ∀ p ∈ kv.2, d.modalities.length ≤ p.length

/-- The pose data of a match is present: both table entries exist, 3x3 and 3x1. -/
def PosePresent {α : Type} (st : Detector α) (m : Match) : Prop :=
  ∃ R T, lookupPose st m = some (R, T) ∧ IsShape 3 3 R ∧ IsShape 3 1 T

/-- The output entry `p` is the pose the specification synthesizes from the match `m`. -/
def IsPoseOf {α : Type} [Add α] [Mul α] [Neg α] [Zero α] (st : Detector α) (m : Match)
    (p : PoseResult α) : Prop :=
  ∃ R T, lookupPose st m = some (R, T) ∧ p = specPose m.class_id R T

/-- One iteration of the loop over the matches completes for `m` and appends `p`. -/
def StepOk {α : Type} [Add α] [Mul α] [Neg α] [Zero α] (st : Detector α) (m : Match)
    (p : PoseResult α) : Prop :=
  (∃ templates drawn, st.detector_.getTemplates m.class_id m.template_id = .ok templates ∧
      visualizeMatch st st.detector_.modalities.length m templates = .ok drawn) ∧
    synthesize st m = .ok p

/-- The pyramids are registered one after the other under `class_id`. -/
def registerAll (d : LinemodDetector) (class_id : String) (pyramids : List TemplatePyramid) :
    LinemodDetector :=
  pyramids.foldl (fun e p => (e.addSyntheticTemplate p class_id).1) d

/-- The document follows the model-store contract of section 6 of the specification: its
detector blob holds the templates `ps` of one class, and its attachments `Rs` and `Ts` are
the sequences `rs` and `ts`, index-aligned with `ps`. -/
structure Conforms {α : Type} (document : Document α) (ps : List TemplatePyramid)
    (rs ts : List (Mat α)) : Prop where
  blob : ∃ detector cid, document.detector = some detector ∧
    detector.class_templates = [(cid, ps)]
  rotations : document.Rs = some rs
  translations : document.Ts = some ts
  rotations_length : rs.length = ps.length
  translations_length : ts.length = ps.length

/-- The engine is the default LINE-MOD engine (two modalities, pyramid steps 5 and 8) and
every pyramid it holds has a template for each of the two modalities. -/
def DefaultEngine (d : LinemodDetector) : Prop :=
  d.modalities = getDefaultLINEMOD.modalities ∧ d.T_at_level = getDefaultLINEMOD.T_at_level ∧
    ∀ kv ∈ d.class_templates, ∀ p ∈ kv.2, 2 ≤ p.length

/-! ## Concrete data used in the examples -/

/-- A filter without smoothing (the source pixel itself), to run `pyrDown` on concrete frames. -/
def decimate : Image → Nat → Nat → Pixel := fun src y x => (src.getD y []).getD x []

/-- A template pyramid with one template per modality. -/
def pyramidA : TemplatePyramid :=
  [⟨4, 4, 0, [⟨1, 2, 0⟩]⟩, ⟨4, 4, 0, [⟨3, 1, 5⟩]⟩]

/-- A second template pyramid. -/
def pyramidB : TemplatePyramid :=
  [⟨6, 6, 0, [⟨0, 0, 1⟩, ⟨2, 2, 3⟩]⟩, ⟨6, 6, 0, []⟩]

/-- The 3x3 identity. -/
def identity3 : Mat Int := [[1, 0, 0], [0, 1, 0], [0, 0, 1]]

/-- The state of the spec's example: class "mug" with two templates, rotations `[I, I]` and
translations `[[0,0,1]ᵗ, [0,1,0]ᵗ]`. -/
def mugState : Detector Int :=
  { detector_ := { getDefaultLINEMOD with class_templates := [("mug", [pyramidA, pyramidB])] },
    threshold_ := 93, visualize_ := false,
    Rs_ := [("mug", [identity3, identity3])],
    Ts_ := [("mug", [[[0], [0], [1]], [[0], [1], [0]]])] }

/-- A state whose engine holds no class. -/
def emptyState : Detector Int :=
  { detector_ := getDefaultLINEMOD, threshold_ := 93, visualize_ := false, Rs_ := [], Ts_ := [] }

/-- A black colour frame of the given size. -/
def blackFrame (rows cols : Nat) : Image := List.replicate rows (List.replicate cols [0, 0, 0])

/-- A depth image of the given size. -/
def flatDepth (rows cols : Nat) : Image := List.replicate rows (List.replicate cols [1000])

/-- An engine `match` that reports template `template_id` of class "mug" at the origin. -/
def mugMatcher (template_id : Int) : LinemodDetector → List Image → Rat → List Match :=
  fun _ _ _ => [⟨0, 0, 95, "mug", template_id⟩]

/-- A document for class "mug" holding the single template `pyramidA`. -/
def docMugA : Document Int :=
  { object_id := "mug",
    detector := some { getDefaultLINEMOD with class_templates := [("mug", [pyramidA])] },
    Rs := some [identity3], Ts := some [[[0], [0], [1]]] }

/-- A second document for class "mug", holding the single template `pyramidB`. -/
def docMugB : Document Int :=
  { object_id := "mug",
    detector := some { getDefaultLINEMOD with class_templates := [("mug", [pyramidB])] },
    Rs := some [identity3], Ts := some [[[0], [1], [0]]] }

/-- A document of class "mug" with two templates and one rotation and translation. -/
def docShortPoses : Document Int :=
  { object_id := "mug",
    detector := some { getDefaultLINEMOD with class_templates := [("mug", [pyramidA, pyramidB])] },
    Rs := some [identity3], Ts := some [[[0], [0], [1]]] }

/-- The state after loading the document with two templates and one pose. -/
def staleState : Detector Int := (parameter_callback emptyState [docShortPoses]).1

/-- A document of class "cup" holding the templates `pyramidB`, `pyramidA`. -/
def docCup : Document Int :=
  { object_id := "cup",
    detector := some { getDefaultLINEMOD with class_templates := [("cup", [pyramidB, pyramidA])] },
    Rs := some [identity3, identity3], Ts := some [[[0], [1], [0]], [[1], [0], [0]]] }

theorem rows_pyrDown (smooth : Image → Nat → Nat → Pixel) (src : Image) :
    Mat.rows (pyrDown smooth src) = (Mat.rows src + 1) / 2 := by
  simp [pyrDown, Mat.rows]

theorem rows_rowRange (m : Image) (b : Nat) (h : b ≤ Mat.rows m) :
    Mat.rows (rowRange m 0 b) = b := by
  simp only [Mat.rows] at h
  simp [rowRange, Mat.rows, h]

theorem preprocess_small (smooth : Image → Nat → Nat → Pixel) (color_ : Image)
    (h : Mat.rows color_ ≤ 960) : preprocess smooth color_ = color_ := by
  simp [preprocess, copyTo, Nat.not_lt.mpr h]

theorem preprocess_large (smooth : Image → Nat → Nat → Pixel) (color_ : Image)
    (h : 960 < Mat.rows color_) :
    preprocess smooth color_ = pyrDown smooth (rowRange color_ 0 960) := by
  simp [preprocess, h]

theorem rows_preprocess_large (smooth : Image → Nat → Nat → Pixel) (color_ : Image)
    (h : 960 < Mat.rows color_) : Mat.rows (preprocess smooth color_) = 480 := by
  rw [preprocess_large smooth color_ h, rows_pyrDown, rows_rowRange _ _ (Nat.le_of_lt h)]

theorem rows_blackFrame (r c : Nat) : Mat.rows (blackFrame r c) = r := by
  simp [blackFrame, Mat.rows]

section
variable {α : Type} [Add α] [Mul α] [Neg α] [Zero α]

theorem process_match_calls (smooth : Image → Nat → Nat → Pixel)
    (matcher : LinemodDetector → List Image → Rat → List Match)
    (st : Detector α) (color_ depth_ : Image) (prior : List (PoseResult α))
    (h : st.detector_.classIds ≠ []) :
    (process smooth matcher st color_ depth_ prior).match_calls
      = [([preprocess smooth color_, depth_], st.threshold_)] := by
  unfold process
  have h1 : st.detector_.classIds.isEmpty = false := by
    cases hc : st.detector_.classIds with
    | nil => exact absurd hc h
    | cons a l => rfl
  simp only [h1, Bool.false_eq_true, if_false]
  split <;> rfl

theorem process_no_class (smooth : Image → Nat → Nat → Pixel)
    (matcher : LinemodDetector → List Image → Rat → List Match)
    (st : Detector α) (color_ depth_ : Image) (prior : List (PoseResult α))
    (h : st.detector_.classIds = []) :
    process smooth matcher st color_ depth_ prior
      = { ret := .ok .OK, pose_results := [], match_calls := [], circles := [], shown := false } := by
  unfold process
  simp [h, clear]

end

/-! ## Lemmas on the loop over the matches -/

theorem shape_three_one {α : Type} (T : Mat α) (h : IsShape 3 1 T) :
    ∃ x y z, T = [[x], [y], [z]] := by
  obtain ⟨hl, hr⟩ := h
  obtain ⟨a, b, c, rfl⟩ := List.length_eq_three.mp hl
  have ha := hr a (by simp)
  have hb := hr b (by simp)
  have hc := hr c (by simp)
  obtain ⟨x, rfl⟩ := List.length_eq_one.mp ha
  obtain ⟨y, rfl⟩ := List.length_eq_one.mp hb
  obtain ⟨z, rfl⟩ := List.length_eq_one.mp hc
  exact ⟨x, y, z, rfl⟩

theorem shape_three_three {α : Type} (R : Mat α) (h : IsShape 3 3 R) :
    ∃ a b c d e f g k l, R = [[a, b, c], [d, e, f], [g, k, l]] := by
  obtain ⟨hl, hr⟩ := h
  obtain ⟨r0, r1, r2, rfl⟩ := List.length_eq_three.mp hl
  have h0 := hr r0 (by simp)
  have h1 := hr r1 (by simp)
  have h2 := hr r2 (by simp)
  obtain ⟨a, b, c, rfl⟩ := List.length_eq_three.mp h0
  obtain ⟨d, e, f, rfl⟩ := List.length_eq_three.mp h1
  obtain ⟨g, k, l, rfl⟩ := List.length_eq_three.mp h2
  exact ⟨a, b, c, d, e, f, g, k, l, rfl⟩

theorem synthesize_of_lookup {α : Type} [Ring α] (st : Detector α) (m : Match) (R T : Mat α)
    (hl : lookupPose st m = some (R, T)) (hR : IsShape 3 3 R) (hT : IsShape 3 1 T) :
    synthesize st m = .ok (specPose m.class_id R T) := by
  obtain ⟨a, b, c, d, e, f, g, k, l, rfl⟩ := shape_three_three R hR
  obtain ⟨x, y, z, rfl⟩ := shape_three_one T hT
  unfold lookupPose at hl
  split at hl
  · exact absurd hl (by simp)
  · rename_i hneg
    have hpos : 0 ≤ m.template_id := Int.not_lt.mp hneg
    split at hl
    · rename_i rotations translations hrs hts
      split at hl
      · rename_i R0 T0 hR0 hT0
        simp only [Option.some.injEq, Prod.mk.injEq] at hl
        obtain ⟨rfl, rfl⟩ := hl
        simp [synthesize, mapAt, hrs, hts, vecIndex, hpos, hR0, hT0, bind, Except.bind, pure,
          Except.pure, Mat.mul, Mat.cols, Mat.rows, Mat.col, dot, negateAt, specPose, rowTimes,
          Mat.entryD, Mat.entry, List.range_succ]
      · exact absurd hl (by simp)
    · exact absurd hl (by simp)

theorem mapFind_mem {β : Type} (l : List (String × β)) (key : String) (v : β)
    (h : mapFind l key = some v) : (key, v) ∈ l := by
  induction l with
  | nil => simp [mapFind] at h
  | cons kv rest ih =>
    obtain ⟨k, w⟩ := kv
    by_cases hk : k = key
    · simp [mapFind, hk] at h
      simp [hk, h]
    · simp [mapFind, hk] at h
      exact List.mem_cons_of_mem _ (ih h)

theorem getTemplates_mem (d : LinemodDetector) (class_id : String) (template_id : Int)
    (tp : TemplatePyramid) (h : d.getTemplates class_id template_id = .ok tp) :
    ∃ kv ∈ d.class_templates, tp ∈ kv.2 := by
  unfold LinemodDetector.getTemplates at h
  split at h
  · exact absurd h (by simp)
  · rename_i pyramids hf
    split at h
    · split at h
      · rename_i p hp
        simp only [Except.ok.injEq] at h
        subst h
        exact ⟨(class_id, pyramids), mapFind_mem _ _ _ hf, List.getElem?_mem hp⟩
      · exact absurd h (by simp)
    · exact absurd h (by simp)

theorem drawModalities_ok (templates : List Template) (offset : Int × Int) (T : Int)
    (ms : List Nat) (h : ∀ m ∈ ms, m < 5 ∧ m < templates.length) :
    ∃ cs, drawModalities templates offset T ms = .ok cs := by
  induction ms with
  | nil => exact ⟨[], rfl⟩
  | cons m rest ih =>
    obtain ⟨cs, hcs⟩ := ih (fun x hx => h x (List.mem_cons_of_mem _ hx))
    obtain ⟨h5, ht⟩ := h m (by simp)
    have hc : ∃ color, COLORS[m]? = some color :=
      ⟨COLORS[m], List.getElem?_eq_getElem (by simpa [COLORS] using h5)⟩
    obtain ⟨color, hcolor⟩ := hc
    have htm : templates[m]? = some templates[m] := List.getElem?_eq_getElem ht
    simp only [drawModalities, hcolor, htm, hcs]
    exact ⟨_, rfl⟩

theorem visualizeMatch_ok {α : Type} (st : Detector α) (m : Match) (tp : TemplatePyramid)
    (hd : st.visualize_ = true → DrawSafe st.detector_)
    (ht : st.detector_.getTemplates m.class_id m.template_id = .ok tp) :
    ∃ drawn, visualizeMatch st st.detector_.modalities.length m tp = .ok drawn := by
  unfold visualizeMatch
  cases hv : st.visualize_ with
  | false => exact ⟨[], by simp⟩
  | true =>
    obtain ⟨h5, hT, hp⟩ := hd hv
    obtain ⟨kv, hkv, hmem⟩ := getTemplates_mem _ _ _ _ ht
    have hlen := hp kv hkv tp hmem
    obtain ⟨t0, hT0⟩ : ∃ t0, st.detector_.T_at_level[0]? = some t0 := by
      cases hl : st.detector_.T_at_level with
      | nil => exact absurd hl hT
      | cons a l => exact ⟨a, by simp⟩
    obtain ⟨cs, hcs⟩ := drawModalities_ok tp (m.x, m.y) t0
      (List.range st.detector_.modalities.length)
      (fun x hx => by
        have := List.mem_range.mp hx
        exact ⟨by omega, by omega⟩)
    refine ⟨cs, ?_⟩
    simp [LinemodDetector.getT, hT0, drawResponse, hcs]

section
variable {α : Type} [Add α] [Mul α] [Neg α] [Zero α]

theorem matchLoop_append (st : Detector α) (rest : List Match) (pre : List Match)
    (poses : List (PoseResult α)) (h : List.Forall₂ (StepOk st) pre poses) :
    ∀ (ps : List (PoseResult α)) (cs : List Circle), ∃ cs1,
      matchLoop st st.detector_.modalities.length (pre ++ rest) ps cs
        = matchLoop st st.detector_.modalities.length rest (ps ++ poses) cs1 := by
  induction h with
  | nil => intro ps cs; exact ⟨cs, by simp⟩
  | @cons m p pre1 poses1 hstep _ ih =>
    intro ps cs
    obtain ⟨⟨tp, dr, htp, hdr⟩, hsyn⟩ := hstep
    obtain ⟨cs1, h1⟩ := ih (ps ++ [p]) (cs ++ dr)
    refine ⟨cs1, ?_⟩
    rw [List.cons_append, matchLoop]
    simp only [htp, hdr, hsyn]
    rw [h1, List.append_assoc, List.singleton_append]

theorem process_of_loop_ok (smooth : Image → Nat → Nat → Pixel)
    (matcher : LinemodDetector → List Image → Rat → List Match)
    (st : Detector α) (color_ depth_ : Image) (prior results : List (PoseResult α))
    (cs : List Circle) (h : st.detector_.classIds ≠ [])
    (hl : matchLoop st st.detector_.modalities.length
      (matcher st.detector_ [preprocess smooth color_, depth_] st.threshold_) [] []
        = (.ok (), results, cs)) :
    process smooth matcher st color_ depth_ prior
      = { ret := .ok .OK, pose_results := results,
          match_calls := [([preprocess smooth color_, depth_], st.threshold_)],
          circles := cs, shown := st.visualize_ } := by
  unfold process
  have h1 : st.detector_.classIds.isEmpty = false := by
    cases hc : st.detector_.classIds with
    | nil => exact absurd hc h
    | cons a l => rfl
  simp only [h1, Bool.false_eq_true, if_false, clear, hl]

theorem process_of_loop_error (smooth : Image → Nat → Nat → Pixel)
    (matcher : LinemodDetector → List Image → Rat → List Match)
    (st : Detector α) (color_ depth_ : Image) (prior results : List (PoseResult α))
    (cs : List Circle) (e : Fault) (h : st.detector_.classIds ≠ [])
    (hl : matchLoop st st.detector_.modalities.length
      (matcher st.detector_ [preprocess smooth color_, depth_] st.threshold_) [] []
        = (.error e, results, cs)) :
    process smooth matcher st color_ depth_ prior
      = { ret := .error e, pose_results := results,
          match_calls := [([preprocess smooth color_, depth_], st.threshold_)],
          circles := cs, shown := false } := by
  unfold process
  have h1 : st.detector_.classIds.isEmpty = false := by
    cases hc : st.detector_.classIds with
    | nil => exact absurd hc h
    | cons a l => rfl
  simp only [h1, Bool.false_eq_true, if_false, clear, hl]

end

theorem stepOk_of_present {α : Type} [Ring α] (st : Detector α) (m : Match)
    (hd : st.visualize_ = true → DrawSafe st.detector_) (hh : Holds st.detector_ m)
    (R T : Mat α) (hl : lookupPose st m = some (R, T)) (hR : IsShape 3 3 R)
    (hT : IsShape 3 1 T) : StepOk st m (specPose m.class_id R T) := by
  obtain ⟨tp, htp⟩ := hh
  obtain ⟨dr, hdr⟩ := visualizeMatch_ok st m tp hd htp
  exact ⟨⟨tp, dr, htp, hdr⟩, synthesize_of_lookup st m R T hl hR hT⟩

theorem forall₂_stepOk {α : Type} [Ring α] (st : Detector α)
    (hd : st.visualize_ = true → DrawSafe st.detector_) (ms : List Match)
    (h : ∀ m ∈ ms, Holds st.detector_ m ∧ PosePresent st m) :
    ∃ poses, List.Forall₂ (StepOk st) ms poses ∧ List.Forall₂ (IsPoseOf st) ms poses := by
  induction ms with
  | nil => exact ⟨[], List.Forall₂.nil, List.Forall₂.nil⟩
  | cons m rest ih =>
    obtain ⟨poses, h1, h2⟩ := ih (fun x hx => h x (List.mem_cons_of_mem _ hx))
    obtain ⟨hh, R, T, hl, hR, hT⟩ := h m (by simp)
    exact ⟨specPose m.class_id R T :: poses,
      List.Forall₂.cons (stepOk_of_present st m hd hh R T hl hR hT) h1,
      List.Forall₂.cons ⟨R, T, hl, rfl⟩ h2⟩

/-! ## Further lemmas on the loop -/

section
variable {α : Type} [Add α] [Mul α] [Neg α] [Zero α]

theorem matchLoop_extends (st : Detector α) (nm : Nat) (ms : List Match) :
    ∀ (ps : List (PoseResult α)) (cs : List Circle),
      ∃ more, (matchLoop st nm ms ps cs).2.1 = ps ++ more ∧ more.length ≤ ms.length := by
  induction ms with
  | nil => intro ps cs; exact ⟨[], by simp [matchLoop]⟩
  | cons m rest ih =>
    intro ps cs
    rw [matchLoop]
    cases ht : st.detector_.getTemplates m.class_id m.template_id with
    | error e => exact ⟨[], by simp⟩
    | ok tp =>
      cases hv : visualizeMatch st nm m tp with
      | error e => exact ⟨[], by simp [hv]⟩
      | ok drawn =>
        cases hs : synthesize st m with
        | error e => exact ⟨[], by simp [hv, hs]⟩
        | ok p =>
          obtain ⟨more, h1, h2⟩ := ih (ps ++ [p]) (cs ++ drawn)
          exact ⟨p :: more, by simp [hv, hs, h1], by simp; omega⟩

theorem process_fields (smooth : Image → Nat → Nat → Pixel)
    (matcher : LinemodDetector → List Image → Rat → List Match)
    (st : Detector α) (color_ depth_ : Image) (prior : List (PoseResult α))
    (h : st.detector_.classIds ≠ []) :
    (process smooth matcher st color_ depth_ prior).ret
        = (match (matchLoop st st.detector_.modalities.length
            (matcher st.detector_ [preprocess smooth color_, depth_] st.threshold_) [] []).1 with
          | .ok _ => .ok .OK
          | .error e => .error e) ∧
      (process smooth matcher st color_ depth_ prior).pose_results
        = (matchLoop st st.detector_.modalities.length
            (matcher st.detector_ [preprocess smooth color_, depth_] st.threshold_) [] []).2.1 := by
  rcases hl : matchLoop st st.detector_.modalities.length
      (matcher st.detector_ [preprocess smooth color_, depth_] st.threshold_) [] []
    with ⟨r, results, cs⟩
  cases r with
  | error e =>
    rw [process_of_loop_error smooth matcher st color_ depth_ prior results cs e h hl]
    exact ⟨rfl, rfl⟩
  | ok u =>
    cases u
    rw [process_of_loop_ok smooth matcher st color_ depth_ prior results cs h hl]
    exact ⟨rfl, rfl⟩

theorem synthesize_no_rotations (st : Detector α) (m : Match)
    (h : mapFind st.Rs_ m.class_id = none) : synthesize st m = .error .out_of_range := by
  simp [synthesize, mapAt, h, bind, Except.bind]

theorem synthesize_no_translations (st : Detector α) (m : Match) (rotations : List (Mat α))
    (R : Mat α) (hr : mapFind st.Rs_ m.class_id = some rotations)
    (hR : vecIndex rotations m.template_id = .ok R)
    (h : mapFind st.Ts_ m.class_id = none) : synthesize st m = .error .out_of_range := by
  simp [synthesize, mapAt, h, hr, hR, bind, Except.bind]

theorem synthesize_rotation_index (st : Detector α) (m : Match) (rotations : List (Mat α))
    (hr : mapFind st.Rs_ m.class_id = some rotations)
    (hi : m.template_id < 0 ∨ (rotations.length : Int) ≤ m.template_id) :
    synthesize st m = .error .undefined := by
  have hv : vecIndex rotations m.template_id = .error .undefined := by
    unfold vecIndex
    by_cases h0 : 0 ≤ m.template_id
    · have hlen : rotations.length ≤ m.template_id.toNat := by omega
      simp [h0, List.getElem?_eq_none hlen]
    · simp [h0]
  simp [synthesize, mapAt, hr, hv, bind, Except.bind]

end

theorem cols_pyrDown (smooth : Image → Nat → Nat → Pixel) (src : Image)
    (h : 0 < Mat.rows src) : Mat.cols (pyrDown smooth src) = (Mat.cols src + 1) / 2 := by
  obtain ⟨k, hk⟩ : ∃ k, (Mat.rows src + 1) / 2 = k + 1 := ⟨(Mat.rows src + 1) / 2 - 1, by omega⟩
  simp [pyrDown, hk, List.range_succ_eq_map, Mat.cols]

theorem cols_rowRange (m : Image) (b : Nat) (hb : 0 < b) :
    Mat.cols (rowRange m 0 b) = Mat.cols m := by
  obtain ⟨k, rfl⟩ : ∃ k, b = k + 1 := ⟨b - 1, by omega⟩
  cases m with
  | nil => simp [rowRange, Mat.cols]
  | cons r rest => simp [rowRange, Mat.cols]

section
variable {α : Type} [Add α] [Mul α] [Neg α] [Zero α]

end

theorem matcherColor_of_calls {α : Type} (o : Outcome α) (color depth : Image) (t : Rat)
    (h : o.match_calls = [([color, depth], t)]) :
    o.matcherColor = some color ∧ o.matcherDepth = some depth := by
  simp [Outcome.matcherColor, Outcome.matcherDepth, h]

theorem loop_of_present {α : Type} [Ring α] (st : Detector α)
    (hd : st.visualize_ = true → DrawSafe st.detector_) (pre rest : List Match)
    (h : ∀ x ∈ pre, Holds st.detector_ x ∧ PosePresent st x) :
    ∃ poses cs1, List.Forall₂ (IsPoseOf st) pre poses ∧
      matchLoop st st.detector_.modalities.length (pre ++ rest) [] []
        = matchLoop st st.detector_.modalities.length rest poses cs1 := by
  obtain ⟨poses, h1, h2⟩ := forall₂_stepOk st hd pre h
  obtain ⟨cs1, h3⟩ := matchLoop_append st rest pre poses h1 [] []
  exact ⟨poses, cs1, h2, by simpa using h3⟩

theorem mugState_classes : mugState.detector_.classIds ≠ [] := by
  simp [mugState, LinemodDetector.classIds]

/-! ## The claims on `process` -/

/-- C2: when the engine holds no class, `process` returns OK with an empty `pose_results_`,
whatever the frame and whatever the output held before, and the engine's `match` is not
called. -/
theorem process_without_classes {α : Type} [Add α] [Mul α] [Neg α] [Zero α]
    (smooth : Image → Nat → Nat → Pixel)
    (matcher : LinemodDetector → List Image → Rat → List Match)
    (st : Detector α) (color_ depth_ : Image) (prior : List (PoseResult α))
    (h : st.detector_.classIds = []) :
    (process smooth matcher st color_ depth_ prior).ret = .ok .OK ∧
      (process smooth matcher st color_ depth_ prior).pose_results = [] ∧
      (process smooth matcher st color_ depth_ prior).match_calls = [] := by
  rw [process_no_class smooth matcher st color_ depth_ prior h]
  exact ⟨rfl, rfl, rfl⟩

/-- C2, at the state without classes, a matcher that would report a match and an output that
held a result of an earlier cycle. -/
theorem process_without_classes_witness :
    emptyState.detector_.classIds = [] ∧
      (process decimate (mugMatcher 0) emptyState (blackFrame 2 2) (flatDepth 2 2)
          [⟨identity3, [[0], [0], [1]], "old"⟩]).ret = .ok .OK ∧
      (process decimate (mugMatcher 0) emptyState (blackFrame 2 2) (flatDepth 2 2)
          [⟨identity3, [[0], [0], [1]], "old"⟩]).pose_results = [] ∧
      (process decimate (mugMatcher 0) emptyState (blackFrame 2 2) (flatDepth 2 2)
          [⟨identity3, [[0], [0], [1]], "old"⟩]).match_calls = [] :=
  ⟨rfl, process_without_classes decimate (mugMatcher 0) emptyState (blackFrame 2 2)
    (flatDepth 2 2) [⟨identity3, [[0], [0], [1]], "old"⟩] rfl⟩

/-- C3 as stated fails: a colour frame of height 1200 reaches the matcher with height 480,
not 600. -/
theorem tall_frame_not_halved :
    960 < Mat.rows (blackFrame 1200 4) ∧
      ((process decimate (mugMatcher 0) mugState (blackFrame 1200 4) (flatDepth 1200 4)
          []).matcherColor).map Mat.rows = some 480 ∧
      480 ≠ Mat.rows (blackFrame 1200 4) / 2 := by
  have hr : Mat.rows (blackFrame 1200 4) = 1200 := rows_blackFrame 1200 4
  have hc := process_match_calls decimate (mugMatcher 0) mugState (blackFrame 1200 4)
    (flatDepth 1200 4) [] mugState_classes
  have hm := (matcherColor_of_calls _ _ _ _ hc).1
  refine ⟨by omega, ?_, by omega⟩
  rw [hm, Option.map_some', rows_preprocess_large decimate _ (by omega)]

/-- C3, amended: a colour frame higher than 960 reaches the matcher as the `pyrDown` of its
first 960 rows, which has 480 rows and `(cols + 1) / 2` columns. -/
theorem tall_frame_cropped_then_halved {α : Type} [Add α] [Mul α] [Neg α] [Zero α]
    (smooth : Image → Nat → Nat → Pixel)
    (matcher : LinemodDetector → List Image → Rat → List Match)
    (st : Detector α) (color_ depth_ : Image) (prior : List (PoseResult α))
    (hc : st.detector_.classIds ≠ []) (h : 960 < Mat.rows color_) :
    (process smooth matcher st color_ depth_ prior).matcherColor
        = some (pyrDown smooth (rowRange color_ 0 960)) ∧
      Mat.rows (pyrDown smooth (rowRange color_ 0 960)) = 480 ∧
      Mat.cols (pyrDown smooth (rowRange color_ 0 960)) = (Mat.cols color_ + 1) / 2 := by
  have hm := process_match_calls smooth matcher st color_ depth_ prior hc
  have hrr : Mat.rows (rowRange color_ 0 960) = 960 := rows_rowRange _ _ (Nat.le_of_lt h)
  refine ⟨?_, ?_, ?_⟩
  · rw [(matcherColor_of_calls _ _ _ _ hm).1, preprocess_large smooth color_ h]
  · rw [rows_pyrDown, hrr]
  · rw [cols_pyrDown smooth _ (by omega), cols_rowRange _ _ (by omega)]

/-- C3, amended, at a frame of 1200 rows and 4 columns: the matcher receives 480 rows and 2
columns. -/
theorem tall_frame_cropped_then_halved_witness :
    ((process decimate (mugMatcher 0) mugState (blackFrame 1200 4) (flatDepth 1200 4)
        []).matcherColor
        = some (pyrDown decimate (rowRange (blackFrame 1200 4) 0 960))) ∧
      Mat.rows (pyrDown decimate (rowRange (blackFrame 1200 4) 0 960)) = 480 ∧
      Mat.cols (pyrDown decimate (rowRange (blackFrame 1200 4) 0 960))
        = (Mat.cols (blackFrame 1200 4) + 1) / 2 :=
  tall_frame_cropped_then_halved decimate (mugMatcher 0) mugState (blackFrame 1200 4)
    (flatDepth 1200 4) [] mugState_classes (by rw [rows_blackFrame]; omega)

/-- C4: a colour frame of height at most 960 is not downsampled and reaches the matcher equal
to the input; and whatever the height of the colour frame, the depth image that reaches the
matcher is the input depth image. -/
theorem small_frame_passes_unchanged {α : Type} [Add α] [Mul α] [Neg α] [Zero α]
    (smooth : Image → Nat → Nat → Pixel)
    (matcher : LinemodDetector → List Image → Rat → List Match)
    (st : Detector α) (color_ depth_ : Image) (prior : List (PoseResult α))
    (hc : st.detector_.classIds ≠ []) (h : Mat.rows color_ ≤ 960) :
    preprocess smooth color_ = color_ ∧
      (process smooth matcher st color_ depth_ prior).match_calls
        = [([color_, depth_], st.threshold_)] ∧
      (process smooth matcher st color_ depth_ prior).matcherColor = some color_ ∧
      ∀ frame : Image,
        (process smooth matcher st frame depth_ prior).matcherDepth = some depth_ := by
  have hm := process_match_calls smooth matcher st color_ depth_ prior hc
  rw [preprocess_small smooth color_ h] at hm
  refine ⟨preprocess_small smooth color_ h, hm, (matcherColor_of_calls _ _ _ _ hm).1, ?_⟩
  intro frame
  exact (matcherColor_of_calls _ _ _ _
    (process_match_calls smooth matcher st frame depth_ prior hc)).2

/-- C4, at a frame of height 480. -/
theorem small_frame_passes_unchanged_witness :
    Mat.rows (blackFrame 480 4) ≤ 960 ∧
      (process decimate (mugMatcher 0) mugState (blackFrame 480 4) (flatDepth 480 4)
          []).matcherColor = some (blackFrame 480 4) ∧
      (process decimate (mugMatcher 0) mugState (blackFrame 1200 4) (flatDepth 480 4)
          []).matcherDepth = some (flatDepth 480 4) :=
  have h := small_frame_passes_unchanged decimate (mugMatcher 0) mugState (blackFrame 480 4)
    (flatDepth 480 4) [] mugState_classes (by rw [rows_blackFrame]; omega)
  ⟨by rw [rows_blackFrame]; omega, h.2.2.1, h.2.2.2 (blackFrame 1200 4)⟩

theorem forall₂_split {β γ : Type} (r : β → γ → Prop) (l1 l2 : List β) :
    ∀ u : List γ, List.Forall₂ r (l1 ++ l2) u →
      ∃ u1 u2, List.Forall₂ r l1 u1 ∧ List.Forall₂ r l2 u2 ∧ u = u1 ++ u2 := by
  induction l1 with
  | nil => intro u h; exact ⟨[], u, List.Forall₂.nil, h, rfl⟩
  | cons b l ih =>
    intro u h
    rw [List.cons_append] at h
    obtain ⟨c, u0, hc, hu0, rfl⟩ := List.forall₂_cons_left_iff.mp h
    obtain ⟨u1, u2, h1, h2, rfl⟩ := ih u0 hu0
    exact ⟨c :: u1, u2, List.Forall₂.cons hc h1, h2, rfl⟩

theorem shape_33 {α : Type} (a b c d e f g k l : α) :
    IsShape 3 3 [[a, b, c], [d, e, f], [g, k, l]] := by
  simp [IsShape]

theorem shape_31 {α : Type} (x y z : α) : IsShape 3 1 [[x], [y], [z]] := by
  simp [IsShape]

theorem specPose_explicit {α : Type} [Ring α] (classId : String) (a b c d e f g k l x y z : α) :
    specPose classId [[a, b, c], [d, e, f], [g, k, l]] [[x], [y], [z]]
      = { R := [[a, b, c], [d, e, f], [g, k, l]],
          T := [[a * x + b * y + c * z], [-(d * x + e * y + f * z)], [-(g * x + k * y + l * z)]],
          object_id := classId } := by
  simp [specPose, rowTimes, Mat.entryD, Mat.entry]

/-- C1: when the engine's matches up to and including `m` refer to templates it holds and to
present pose data, and the pose-table entries of `m` are the 3x3 matrix `R` and the 3x1
vector `T`, the result `process` emits for `m` (at the position of `m`) has rotation `R`,
translation `[(R·T)₀, -(R·T)₁, -(R·T)₂]` and the class id of `m` as its object id. -/
theorem pose_of_match {α : Type} [Ring α]
    (smooth : Image → Nat → Nat → Pixel)
    (matcher : LinemodDetector → List Image → Rat → List Match)
    (st : Detector α) (color_ depth_ : Image) (prior : List (PoseResult α))
    (hc : st.detector_.classIds ≠ [])
    (hd : st.visualize_ = true → DrawSafe st.detector_)
    (pre post : List Match) (m : Match)
    (hm : matcher st.detector_ [preprocess smooth color_, depth_] st.threshold_
      = pre ++ m :: post)
    (hpre : ∀ x ∈ pre, Holds st.detector_ x ∧ PosePresent st x)
    (hh : Holds st.detector_ m)
    (a b c d e f g k l x y z : α)
    (hl : lookupPose st m = some ([[a, b, c], [d, e, f], [g, k, l]], [[x], [y], [z]])) :
    (process smooth matcher st color_ depth_ prior).pose_results[pre.length]?
      = some { R := [[a, b, c], [d, e, f], [g, k, l]],
               T := [[a * x + b * y + c * z], [-(d * x + e * y + f * z)],
                     [-(g * x + k * y + l * z)]],
               object_id := m.class_id } := by
  have hall : ∀ x ∈ pre ++ [m], Holds st.detector_ x ∧ PosePresent st x := by
    intro w hw
    rcases List.mem_append.mp hw with h1 | h1
    · exact hpre w h1
    · rw [List.mem_singleton] at h1
      subst h1
      exact ⟨hh, _, _, hl, shape_33 a b c d e f g k l, shape_31 x y z⟩
  obtain ⟨poses, cs1, hposes, hloop⟩ := loop_of_present st hd (pre ++ [m]) post hall
  rw [List.append_assoc, List.singleton_append] at hloop
  obtain ⟨more, hmore, _⟩ := matchLoop_extends st st.detector_.modalities.length post poses cs1
  rw [(process_fields smooth matcher st color_ depth_ prior hc).2, hm, hloop, hmore]
  obtain ⟨p1, p2, hp1, hp2, rfl⟩ := forall₂_split _ pre [m] poses hposes
  have hlen : p1.length = pre.length := hp1.length_eq.symm
  obtain ⟨q, qs, hq, hqs, rfl⟩ := List.forall₂_cons_left_iff.mp hp2
  obtain ⟨R, T, hRT, rfl⟩ := hq
  rw [hl] at hRT
  simp only [Option.some.injEq, Prod.mk.injEq] at hRT
  obtain ⟨rfl, rfl⟩ := hRT
  rw [← hlen, ← specPose_explicit, List.append_assoc, List.getElem?_append_right (Nat.le_refl _)]
  simp

/-- C1, at the example of the specification: class "mug", `R = I`, `T = [0,0,1]ᵗ` gives the
translation `[0,0,-1]ᵗ`. -/
theorem pose_of_match_witness :
    lookupPose mugState ⟨0, 0, 95, "mug", 0⟩ = some (identity3, [[0], [0], [1]]) ∧
      (process decimate (mugMatcher 0) mugState (blackFrame 2 2) (flatDepth 2 2)
          []).pose_results[0]?
        = some { R := identity3, T := [[0], [0], [-1]], object_id := "mug" } := by
  have h := pose_of_match decimate (mugMatcher 0) mugState (blackFrame 2 2) (flatDepth 2 2) []
    mugState_classes (by simp [mugState]) [] [] ⟨0, 0, 95, "mug", 0⟩ rfl (by simp)
    ⟨pyramidA, rfl⟩ 1 0 0 0 1 0 0 0 1 0 0 1 rfl
  exact ⟨rfl, by simpa [identity3] using h⟩

section
variable {α : Type} [Add α] [Mul α] [Neg α] [Zero α]

end

/-- C10, at the failing input: after a document with two templates and one rotation is
loaded the engine holds templates 0 and 1 of "mug" while the pose table holds one rotation,
and for the match of template 1 `process` reads `Rs_.at("mug")[1]` through the unchecked
`operator[]`, where the checked `at` of the class lookup would have raised: no exception is
raised, the behaviour is undefined. -/
theorem stale_index_not_fatal :
    (parameter_callback emptyState [docShortPoses]).2 = .ok () ∧
      staleState.detector_.getTemplates "mug" 1 = .ok pyramidB ∧
      mapFind staleState.Rs_ "mug" = some [identity3] ∧
      (process decimate (mugMatcher 1) staleState (blackFrame 2 2) (flatDepth 2 2) []).ret
        = .error .undefined ∧
      (process decimate (mugMatcher 1) staleState (blackFrame 2 2) (flatDepth 2 2) []).ret
        ≠ .error .out_of_range ∧
      (process decimate (mugMatcher 1) staleState (blackFrame 2 2) (flatDepth 2 2) []).ret
        ≠ .error .cv_error := by
  have h : (process decimate (mugMatcher 1) staleState (blackFrame 2 2) (flatDepth 2 2) []).ret
      = .error .undefined := rfl
  refine ⟨rfl, rfl, rfl, h, ?_, ?_⟩ <;> rw [h] <;> simp

/-- The checked half of the pose lookup: when the matches before `m` are served and `m`, a
match the engine holds, has a class id that is absent from the rotations or from the
translations of the pose table,
`process` ends with the exception `std::out_of_range` of `std::map::at`, and the output holds
the poses of the matches before `m` only: no result for `m` or for a later match. -/
theorem absent_class_is_fatal {α : Type} [Ring α]
    (smooth : Image → Nat → Nat → Pixel)
    (matcher : LinemodDetector → List Image → Rat → List Match)
    (st : Detector α) (color_ depth_ : Image) (prior : List (PoseResult α))
    (hc : st.detector_.classIds ≠ [])
    (hd : st.visualize_ = true → DrawSafe st.detector_)
    (pre post : List Match) (m : Match)
    (hm : matcher st.detector_ [preprocess smooth color_, depth_] st.threshold_
      = pre ++ m :: post)
    (hpre : ∀ x ∈ pre, Holds st.detector_ x ∧ PosePresent st x)
    (hh : Holds st.detector_ m)
    (habs : mapFind st.Rs_ m.class_id = none ∨
      (mapFind st.Ts_ m.class_id = none ∧
        ∃ rotations R, mapFind st.Rs_ m.class_id = some rotations ∧
          vecIndex rotations m.template_id = .ok R)) :
    (process smooth matcher st color_ depth_ prior).ret = .error .out_of_range ∧
      (process smooth matcher st color_ depth_ prior).pose_results.length = pre.length ∧
      List.Forall₂ (IsPoseOf st) pre
        (process smooth matcher st color_ depth_ prior).pose_results := by
  obtain ⟨poses, cs1, hposes, hloop⟩ := loop_of_present st hd pre (m :: post) hpre
  obtain ⟨tp, htp⟩ := hh
  obtain ⟨dr, hdr⟩ := visualizeMatch_ok st m tp hd htp
  have hsyn : synthesize st m = .error .out_of_range := by
    rcases habs with h | ⟨h, rotations, R, hr, hR⟩
    · exact synthesize_no_rotations st m h
    · exact synthesize_no_translations st m rotations R hr hR h
  have hstep : matchLoop st st.detector_.modalities.length (m :: post) poses cs1
      = (.error .out_of_range, poses, cs1 ++ dr) := by
    rw [matchLoop]
    simp only [htp, hdr, hsyn]
  have hp := process_of_loop_error smooth matcher st color_ depth_ prior poses (cs1 ++ dr)
    .out_of_range hc (by rw [hm, hloop, hstep])
  rw [hp]
  exact ⟨rfl, hposes.length_eq.symm, hposes⟩

/-- The checked half of the pose lookup, at the state of the specification's example and a
match of the class "cup", which the engine holds but the pose table does not. -/
theorem absent_class_is_fatal_witness :
    mapFind ({ mugState with detector_ := { mugState.detector_ with
        class_templates := [("mug", [pyramidA, pyramidB]), ("cup", [pyramidA])] } }).Rs_ "cup"
        = none ∧
      (process decimate (fun _ _ _ => [⟨0, 0, 95, "mug", 0⟩, ⟨1, 1, 94, "cup", 0⟩])
          { mugState with detector_ := { mugState.detector_ with
            class_templates := [("mug", [pyramidA, pyramidB]), ("cup", [pyramidA])] } }
          (blackFrame 2 2) (flatDepth 2 2) []).ret = .error .out_of_range ∧
      (process decimate (fun _ _ _ => [⟨0, 0, 95, "mug", 0⟩, ⟨1, 1, 94, "cup", 0⟩])
          { mugState with detector_ := { mugState.detector_ with
            class_templates := [("mug", [pyramidA, pyramidB]), ("cup", [pyramidA])] } }
          (blackFrame 2 2) (flatDepth 2 2) []).pose_results.length = 1 :=
  have h := absent_class_is_fatal decimate
    (fun _ _ _ => [⟨0, 0, 95, "mug", 0⟩, ⟨1, 1, 94, "cup", 0⟩])
    { mugState with detector_ := { mugState.detector_ with
        class_templates := [("mug", [pyramidA, pyramidB]), ("cup", [pyramidA])] } }
    (blackFrame 2 2) (flatDepth 2 2) [] (by simp [LinemodDetector.classIds])
    (fun hv => absurd hv (by simp [mugState]))
    [⟨0, 0, 95, "mug", 0⟩] [] ⟨1, 1, 94, "cup", 0⟩ rfl
    (fun x hx => by
      rw [List.mem_singleton] at hx
      subst hx
      exact ⟨⟨pyramidA, rfl⟩, identity3, [[0], [0], [1]], rfl, shape_33 _ _ _ _ _ _ _ _ _,
        shape_31 _ _ _⟩)
    ⟨pyramidA, rfl⟩ (Or.inl rfl)
  ⟨rfl, h.1, h.2.1⟩

/-! ## Lemmas on `parameter_callback` -/

theorem mapFind_mapSet_same {β : Type} (m : List (String × β)) (key : String) (v : β) :
    mapFind (mapSet m key v) key = some v := by
  induction m with
  | nil => simp [mapSet, mapFind]
  | cons kv rest ih =>
    obtain ⟨k, w⟩ := kv
    by_cases hk : k = key
    · simp [mapSet, mapFind, hk]
    · simp [mapSet, mapFind, hk, ih]

theorem mapFind_mapSet_other {β : Type} (m : List (String × β)) (key other : String) (v : β)
    (h : other ≠ key) : mapFind (mapSet m key v) other = mapFind m other := by
  induction m with
  | nil => simp [mapSet, mapFind, Ne.symm h]
  | cons kv rest ih =>
    obtain ⟨k, w⟩ := kv
    by_cases hk : k = key
    · subst hk
      simp [mapSet, mapFind, Ne.symm h]
    · by_cases ho : k = other
      · subst ho
        simp [mapSet, mapFind, hk]
      · simp [mapSet, mapFind, hk, ho, ih]

theorem templatesOf_add_same (d : LinemodDetector) (t : TemplatePyramid) (class_id : String) :
    (d.addSyntheticTemplate t class_id).1.templatesOf class_id
      = d.templatesOf class_id ++ [t] := by
  simp [LinemodDetector.addSyntheticTemplate, LinemodDetector.templatesOf, mapFind_mapSet_same]

theorem templatesOf_add_other (d : LinemodDetector) (t : TemplatePyramid)
    (class_id other : String) (h : other ≠ class_id) :
    (d.addSyntheticTemplate t class_id).1.templatesOf other = d.templatesOf other := by
  simp [LinemodDetector.addSyntheticTemplate, LinemodDetector.templatesOf,
    mapFind_mapSet_other _ _ _ _ h]

theorem templatesOf_registerAll_same (class_id : String) (ps : List TemplatePyramid) :
    ∀ d : LinemodDetector,
      (registerAll d class_id ps).templatesOf class_id = d.templatesOf class_id ++ ps := by
  induction ps with
  | nil => intro d; simp [registerAll]
  | cons p rest ih =>
    intro d
    have h := ih (d.addSyntheticTemplate p class_id).1
    rw [templatesOf_add_same] at h
    simpa [registerAll] using h

theorem templatesOf_registerAll_other (class_id other : String) (h : other ≠ class_id)
    (ps : List TemplatePyramid) :
    ∀ d : LinemodDetector, (registerAll d class_id ps).templatesOf other = d.templatesOf other := by
  induction ps with
  | nil => intro d; simp [registerAll]
  | cons p rest ih =>
    intro d
    have h1 := ih (d.addSyntheticTemplate p class_id).1
    rw [templatesOf_add_other _ _ _ _ h] at h1
    simpa [registerAll] using h1

theorem getTemplates_eq (d : LinemodDetector) (class_id : String) (n : Nat) :
    d.getTemplates class_id (n : Int)
      = match (d.templatesOf class_id)[n]? with
        | some p => .ok p
        | none => .error .cv_error := by
  unfold LinemodDetector.getTemplates LinemodDetector.templatesOf
  cases mapFind d.class_templates class_id with
  | none => simp
  | some pyramids => simp

theorem blob_templatesOf (detector : LinemodDetector) (cid : String) (ps : List TemplatePyramid)
    (h : detector.class_templates = [(cid, ps)]) :
    detector.templatesOf cid = ps ∧ detector.numTemplates = ps.length ∧
      detector.classIds = [cid] := by
  simp [LinemodDetector.templatesOf, LinemodDetector.numTemplates, LinemodDetector.classIds, h,
    mapFind]

theorem registerLoop_range (detector : LinemodDetector) (cid object_id : String)
    (ps : List TemplatePyramid) (h : detector.templatesOf cid = ps) :
    ∀ (n k : Nat) (d : LinemodDetector), k + n ≤ ps.length →
      registerLoop detector cid object_id (List.range' k n) d
        = (registerAll d object_id ((ps.drop k).take n), .ok ()) := by
  intro n
  induction n with
  | zero => intro k d _; simp [registerLoop, registerAll]
  | succ n ih =>
    intro k d hk
    have hlt : k < ps.length := by omega
    have hget : detector.getTemplates cid (k : Int) = .ok ps[k] := by
      rw [getTemplates_eq, h, List.getElem?_eq_getElem hlt]
    rw [List.range'_succ, registerLoop]
    simp only [hget]
    rw [ih (k + 1) _ (by omega), List.drop_eq_getElem_cons hlt, List.take_succ_cons]
    simp [registerAll]

theorem registerLoop_blob (detector : LinemodDetector) (cid object_id : String)
    (ps : List TemplatePyramid) (h : detector.class_templates = [(cid, ps)])
    (d : LinemodDetector) :
    registerLoop detector cid object_id (List.range detector.numTemplates) d
      = (registerAll d object_id ps, .ok ()) := by
  obtain ⟨h1, h2, _⟩ := blob_templatesOf detector cid ps h
  rw [h2, List.range_eq_range', registerLoop_range detector cid object_id ps h1 ps.length 0 d
    (by omega)]
  simp

theorem loadDocument_blob {α : Type} (st : Detector α) (document : Document α)
    (detector : LinemodDetector) (cid : String) (ps : List TemplatePyramid)
    (hb : document.detector = some detector) (hcls : detector.class_templates = [(cid, ps)]) :
    loadDocument st document
      = match document.Rs with
        | none =>
          ({ st with detector_ := registerAll st.detector_ document.object_id ps,
                     Rs_ := mapSet st.Rs_ document.object_id
                       (mapIndex st.Rs_ document.object_id) }, .error .load_error)
        | some rs =>
          match document.Ts with
          | none =>
            ({ st with detector_ := registerAll st.detector_ document.object_id ps,
                       Rs_ := mapSet st.Rs_ document.object_id rs,
                       Ts_ := mapSet st.Ts_ document.object_id
                         (mapIndex st.Ts_ document.object_id) }, .error .load_error)
          | some ts =>
            ({ st with detector_ := registerAll st.detector_ document.object_id ps,
                       Rs_ := mapSet st.Rs_ document.object_id rs,
                       Ts_ := mapSet st.Ts_ document.object_id ts }, .ok ()) := by
  unfold loadDocument
  simp only [hb, get_attachment, (blob_templatesOf detector cid ps hcls).2.2,
    registerLoop_blob detector cid document.object_id ps hcls]
  cases document.Rs with
  | none => rfl
  | some rs =>
    cases document.Ts with
    | none => rfl
    | some ts => rfl

theorem loadDocument_engine {α : Type} (st : Detector α) (document : Document α)
    (detector : LinemodDetector) (cid : String) (ps : List TemplatePyramid)
    (hb : document.detector = some detector) (hcls : detector.class_templates = [(cid, ps)]) :
    (loadDocument st document).1.detector_ = registerAll st.detector_ document.object_id ps := by
  rw [loadDocument_blob st document detector cid ps hb hcls]
  cases document.Rs with
  | none => rfl
  | some rs =>
    cases document.Ts with
    | none => rfl
    | some ts => rfl

theorem loadDocument_conforms {α : Type} (st : Detector α) (document : Document α)
    (ps : List TemplatePyramid) (rs ts : List (Mat α)) (h : Conforms document ps rs ts) :
    loadDocument st document
      = ({ st with detector_ := registerAll st.detector_ document.object_id ps,
                   Rs_ := mapSet st.Rs_ document.object_id rs,
                   Ts_ := mapSet st.Ts_ document.object_id ts }, .ok ()) := by
  obtain ⟨detector, cid, hb, hcls⟩ := h.blob
  rw [loadDocument_blob st document detector cid ps hb hcls, h.rotations, h.translations]

theorem conforms_unique {α : Type} (document : Document α) (ps ps1 : List TemplatePyramid)
    (rs ts rs1 ts1 : List (Mat α)) (h : Conforms document ps rs ts)
    (h1 : Conforms document ps1 rs1 ts1) : ps1 = ps ∧ rs1 = rs ∧ ts1 = ts := by
  obtain ⟨detector, cid, hb, hcls⟩ := h.blob
  obtain ⟨detector1, cid1, hb1, hcls1⟩ := h1.blob
  have hr := h.rotations
  have hr1 := h1.rotations
  have ht := h.translations
  have ht1 := h1.translations
  rw [hb] at hb1
  simp only [Option.some.injEq] at hb1
  subst hb1
  rw [hcls] at hcls1
  rw [hr] at hr1
  rw [ht] at ht1
  simp only [List.cons.injEq, Prod.mk.injEq, and_true, Option.some.injEq] at hcls1 hr1 ht1
  exact ⟨hcls1.2.symm, hr1.symm, ht1.symm⟩

/-- C8: loading a document whose detector blob holds the templates `ps` of its class
registers exactly these under the document's `object_id`, in blob order: the class's
collection becomes the previous one followed by `ps`, so its count grows by the number of
templates in the blob, the i-th template of the blob gets index `prev + i`, and the
collections of the other classes are unchanged. -/
theorem loadDocument_registers_templates {α : Type} (st : Detector α) (document : Document α)
    (detector : LinemodDetector) (cid : String) (ps : List TemplatePyramid)
    (hb : document.detector = some detector) (hcls : detector.class_templates = [(cid, ps)]) :
    (loadDocument st document).1.detector_.templatesOf document.object_id
        = st.detector_.templatesOf document.object_id ++ ps ∧
      ((loadDocument st document).1.detector_.templatesOf document.object_id).length
        = (st.detector_.templatesOf document.object_id).length + ps.length ∧
      (∀ (i : Nat) (hi : i < ps.length),
        (loadDocument st document).1.detector_.getTemplates document.object_id
            (((st.detector_.templatesOf document.object_id).length + i : Nat) : Int)
          = .ok ps[i]) ∧
      (∀ other : String, other ≠ document.object_id →
        (loadDocument st document).1.detector_.templatesOf other
          = st.detector_.templatesOf other) := by
  have he := loadDocument_engine st document detector cid ps hb hcls
  have hs := templatesOf_registerAll_same document.object_id ps st.detector_
  rw [he]
  refine ⟨hs, by rw [hs, List.length_append], ?_, ?_⟩
  · intro i hi
    rw [getTemplates_eq, hs, List.getElem?_append_right (Nat.le_add_right _ _)]
    simp [hi]
  · intro other ho
    exact templatesOf_registerAll_other document.object_id other ho ps st.detector_

/-- C8, at the second document of class "mug", loaded after the first: the class had one
template, the blob holds one, which gets index 1. -/
theorem loadDocument_registers_templates_witness :
    ((loadDocument (loadDocument emptyState docMugA).1 docMugB).1.detector_.templatesOf "mug"
        = [pyramidA, pyramidB]) ∧
      (loadDocument (loadDocument emptyState docMugA).1 docMugB).1.detector_.getTemplates "mug" 1
        = .ok pyramidB :=
  have h := loadDocument_registers_templates (loadDocument emptyState docMugA).1 docMugB
    { getDefaultLINEMOD with class_templates := [("mug", [pyramidB])] } "mug" [pyramidB] rfl rfl
  ⟨h.1, h.2.2.1 0 (by decide)⟩

theorem loadDocuments_cons_conforms {α : Type} (st : Detector α) (d : Document α)
    (rest : List (Document α)) (ps : List TemplatePyramid) (rs ts : List (Mat α))
    (h : Conforms d ps rs ts) :
    ∃ st1 : Detector α, loadDocuments st (d :: rest) = loadDocuments st1 rest ∧
      st1.detector_ = registerAll st.detector_ d.object_id ps ∧
      st1.Rs_ = mapSet st.Rs_ d.object_id rs ∧ st1.Ts_ = mapSet st.Ts_ d.object_id ts := by
  rw [loadDocuments, loadDocument_conforms st d ps rs ts h]
  exact ⟨_, rfl, rfl, rfl, rfl⟩

theorem loadDocuments_conform {α : Type} (docs : List (Document α)) :
    ∀ st : Detector α, (docs.map fun d => d.object_id).Nodup →
      (∀ d ∈ docs, ∃ ps rs ts, Conforms d ps rs ts) →
      (loadDocuments st docs).2 = .ok () ∧
        (∀ c : String, c ∉ docs.map (fun d => d.object_id) →
          (loadDocuments st docs).1.detector_.templatesOf c = st.detector_.templatesOf c ∧
            mapFind (loadDocuments st docs).1.Rs_ c = mapFind st.Rs_ c ∧
            mapFind (loadDocuments st docs).1.Ts_ c = mapFind st.Ts_ c) ∧
        (∀ d ∈ docs, ∀ ps rs ts, Conforms d ps rs ts →
          (loadDocuments st docs).1.detector_.templatesOf d.object_id
              = st.detector_.templatesOf d.object_id ++ ps ∧
            mapFind (loadDocuments st docs).1.Rs_ d.object_id = some rs ∧
            mapFind (loadDocuments st docs).1.Ts_ d.object_id = some ts) := by
  induction docs with
  | nil =>
    intro st _ _
    exact ⟨rfl, fun c _ => ⟨rfl, rfl, rfl⟩, fun d hd => absurd hd (List.not_mem_nil d)⟩
  | cons d rest ih =>
    intro st hnd hconf
    obtain ⟨ps, rs, ts, hd⟩ := hconf d (List.mem_cons_self d rest)
    rw [List.map_cons, List.nodup_cons] at hnd
    obtain ⟨hnot, hnd1⟩ := hnd
    obtain ⟨st1, hstep, e1, e2, e3⟩ := loadDocuments_cons_conforms st d rest ps rs ts hd
    obtain ⟨h1, h2, h3⟩ := ih st1 hnd1 (fun x hx => hconf x (List.mem_cons_of_mem d hx))
    rw [hstep]
    refine ⟨h1, ?_, ?_⟩
    · intro c hc
      rw [List.map_cons, List.mem_cons, not_or] at hc
      obtain ⟨hne, hrest⟩ := hc
      obtain ⟨a1, a2, a3⟩ := h2 c hrest
      refine ⟨?_, ?_, ?_⟩
      · rw [a1, e1]; exact templatesOf_registerAll_other d.object_id c hne ps st.detector_
      · rw [a2, e2]; exact mapFind_mapSet_other _ _ _ _ hne
      · rw [a3, e3]; exact mapFind_mapSet_other _ _ _ _ hne
    · intro x hx ps1 rs1 ts1 hx1
      rcases List.mem_cons.mp hx with rfl | hxr
      · obtain ⟨rfl, rfl, rfl⟩ := conforms_unique x ps ps1 rs ts rs1 ts1 hd hx1
        obtain ⟨a1, a2, a3⟩ := h2 x.object_id hnot
        refine ⟨?_, ?_, ?_⟩
        · rw [a1, e1]; exact templatesOf_registerAll_same x.object_id ps1 st.detector_
        · rw [a2, e2]; exact mapFind_mapSet_same _ _ _
        · rw [a3, e3]; exact mapFind_mapSet_same _ _ _
      · obtain ⟨a1, a2, a3⟩ := h3 x hxr ps1 rs1 ts1 hx1
        have hne : x.object_id ≠ d.object_id := by
          intro heq
          exact hnot (heq ▸ List.mem_map_of_mem (fun d => d.object_id) hxr)
        refine ⟨?_, a2, a3⟩
        rw [a1, e1, templatesOf_registerAll_other d.object_id x.object_id hne ps st.detector_]

/-- C7 as stated fails. A document with two templates and one rotation and translation loads
successfully and leaves two templates of the class in the engine next to one rotation and
one translation. And two documents of the same `object_id` with one template each load
successfully and leave two templates next to the one rotation and translation of the second
document, so template 0 (of the first document) stands next to the pose of the second. -/
theorem misaligned_loads_succeed :
    (parameter_callback emptyState [docShortPoses]).2 = .ok () ∧
      ((parameter_callback emptyState [docShortPoses]).1.detector_.templatesOf "mug").length
        = 2 ∧
      mapFind (parameter_callback emptyState [docShortPoses]).1.Rs_ "mug" = some [identity3] ∧
      mapFind (parameter_callback emptyState [docShortPoses]).1.Ts_ "mug"
        = some [[[0], [0], [1]]] ∧
      (parameter_callback emptyState [docMugA, docMugB]).2 = .ok () ∧
      ((parameter_callback emptyState [docMugA, docMugB]).1.detector_.templatesOf "mug").length
        = 2 ∧
      mapFind (parameter_callback emptyState [docMugA, docMugB]).1.Rs_ "mug" = some [identity3] ∧
      mapFind (parameter_callback emptyState [docMugA, docMugB]).1.Ts_ "mug"
        = some [[[0], [1], [0]]] ∧
      (parameter_callback emptyState [docMugA, docMugB]).1.detector_.getTemplates "mug" 0
        = .ok pyramidA ∧
      docMugA.Ts = some [[[0], [0], [1]]] :=
  ⟨rfl, rfl, rfl, rfl, rfl, rfl, rfl, rfl, rfl, rfl⟩

/-- C7, amended: after `parameter_callback` has loaded documents of pairwise distinct
`object_id`, each with a blob of one class and `Rs`, `Ts` attachments as long as the blob has
templates, the load has succeeded and for every loaded class the engine's templates are
exactly the document's templates and the stored rotations and translations exactly its `Rs`
and `Ts`, in order: the three sequences have the same length and template `i` stands next
to the i-th rotation and translation. -/
theorem parameter_callback_aligned {α : Type} (st : Detector α) (docs : List (Document α))
    (hnd : (docs.map fun d => d.object_id).Nodup)
    (hconf : ∀ d ∈ docs, ∃ ps rs ts, Conforms d ps rs ts) :
    (parameter_callback st docs).2 = .ok () ∧
      ∀ d ∈ docs, ∀ ps rs ts, Conforms d ps rs ts →
        (parameter_callback st docs).1.detector_.templatesOf d.object_id = ps ∧
          mapFind (parameter_callback st docs).1.Rs_ d.object_id = some rs ∧
          mapFind (parameter_callback st docs).1.Ts_ d.object_id = some ts ∧
          rs.length = ps.length ∧ ts.length = ps.length := by
  obtain ⟨h1, _, h3⟩ := loadDocuments_conform docs { st with detector_ := getDefaultLINEMOD }
    hnd hconf
  refine ⟨h1, ?_⟩
  intro d hd ps rs ts hc
  obtain ⟨a1, a2, a3⟩ := h3 d hd ps rs ts hc
  refine ⟨?_, a2, a3, hc.rotations_length, hc.translations_length⟩
  rw [parameter_callback, a1]
  simp [LinemodDetector.templatesOf, getDefaultLINEMOD, mapFind]

theorem docMugA_conforms : Conforms docMugA [pyramidA] [identity3] [[[0], [0], [1]]] :=
  ⟨⟨_, "mug", rfl, rfl⟩, rfl, rfl, rfl, rfl⟩

theorem docCup_conforms :
    Conforms docCup [pyramidB, pyramidA] [identity3, identity3]
      [[[0], [1], [0]], [[1], [0], [0]]] :=
  ⟨⟨_, "cup", rfl, rfl⟩, rfl, rfl, rfl, rfl⟩

/-- C7, amended, at the documents of the classes "mug" and "cup". -/
theorem parameter_callback_aligned_witness :
    (parameter_callback emptyState [docMugA, docCup]).2 = .ok () ∧
      (parameter_callback emptyState [docMugA, docCup]).1.detector_.templatesOf "cup"
        = [pyramidB, pyramidA] ∧
      mapFind (parameter_callback emptyState [docMugA, docCup]).1.Rs_ "cup"
        = some [identity3, identity3] ∧
      mapFind (parameter_callback emptyState [docMugA, docCup]).1.Ts_ "cup"
        = some [[[0], [1], [0]], [[1], [0], [0]]] :=
  have h := parameter_callback_aligned emptyState [docMugA, docCup] (by decide)
    (fun d hd => by
      simp only [List.mem_cons, List.mem_singleton, List.not_mem_nil, or_false] at hd
      rcases hd with rfl | rfl
      · exact ⟨_, _, _, docMugA_conforms⟩
      · exact ⟨_, _, _, docCup_conforms⟩)
  have hc := h.2 docCup (by simp) _ _ _ docCup_conforms
  ⟨h.1, hc.1, hc.2.1, hc.2.2.1⟩

theorem mem_mapSet {β : Type} (m : List (String × β)) (key : String) (v : β)
    (kv : String × β) (h : kv ∈ mapSet m key v) : kv ∈ m ∨ kv.2 = v := by
  induction m with
  | nil =>
    simp only [mapSet, List.mem_singleton] at h
    exact Or.inr (by rw [h])
  | cons e rest ih =>
    obtain ⟨k, w⟩ := e
    by_cases hk : k = key
    · simp only [mapSet, hk, if_true, List.mem_cons] at h
      rcases h with h | h
      · exact Or.inr (by rw [h])
      · exact Or.inl (List.mem_cons_of_mem _ h)
    · simp only [mapSet, hk, if_false, List.mem_cons] at h
      rcases h with h | h
      · exact Or.inl (by rw [h]; exact List.mem_cons_self _ _)
      · rcases ih h with h1 | h1
        · exact Or.inl (List.mem_cons_of_mem _ h1)
        · exact Or.inr h1

theorem defaultEngine_add (d : LinemodDetector) (t : TemplatePyramid) (class_id : String)
    (hd : DefaultEngine d) (ht : 2 ≤ t.length) :
    DefaultEngine (d.addSyntheticTemplate t class_id).1 := by
  obtain ⟨h1, h2, h3⟩ := hd
  refine ⟨h1, h2, ?_⟩
  intro kv hkv p hp
  rcases mem_mapSet _ _ _ kv hkv with h | h
  · exact h3 kv h p hp
  · rw [h, List.mem_append, List.mem_singleton] at hp
    rcases hp with hp | rfl
    · unfold LinemodDetector.templatesOf at hp
      cases hf : mapFind d.class_templates class_id with
      | none => simp [hf] at hp
      | some pyramids =>
        rw [hf] at hp
        exact h3 (class_id, pyramids) (mapFind_mem _ _ _ hf) p hp
    · exact ht

theorem defaultEngine_registerAll (class_id : String) (ps : List TemplatePyramid)
    (hps : ∀ p ∈ ps, 2 ≤ p.length) :
    ∀ d : LinemodDetector, DefaultEngine d → DefaultEngine (registerAll d class_id ps) := by
  induction ps with
  | nil => intro d hd; exact hd
  | cons p rest ih =>
    intro d hd
    exact ih (fun x hx => hps x (List.mem_cons_of_mem _ hx)) _
      (defaultEngine_add d p class_id hd (hps p (List.mem_cons_self _ _)))

theorem defaultEngine_loadDocuments {α : Type} (docs : List (Document α))
    (hconf : ∀ d ∈ docs, ∃ ps rs ts, Conforms d ps rs ts ∧ ∀ p ∈ ps, 2 ≤ p.length) :
    ∀ st : Detector α, DefaultEngine st.detector_ →
      DefaultEngine (loadDocuments st docs).1.detector_ := by
  induction docs with
  | nil => intro st h; exact h
  | cons d rest ih =>
    intro st h
    obtain ⟨ps, rs, ts, hd, hps⟩ := hconf d (List.mem_cons_self d rest)
    obtain ⟨st1, hstep, e1, _, _⟩ := loadDocuments_cons_conforms st d rest ps rs ts hd
    rw [hstep]
    refine ih (fun x hx => hconf x (List.mem_cons_of_mem d hx)) st1 ?_
    rw [e1]
    exact defaultEngine_registerAll d.object_id ps hps st.detector_ h

theorem drawSafe_of_defaultEngine (d : LinemodDetector) (h : DefaultEngine d) : DrawSafe d := by
  obtain ⟨h1, h2, h3⟩ := h
  refine ⟨by rw [h1]; decide, by rw [h2]; simp [getDefaultLINEMOD], ?_⟩
  intro kv hkv p hp
  rw [h1]
  exact h3 kv hkv p hp

theorem parameter_callback_drawSafe {α : Type} (st : Detector α) (docs : List (Document α))
    (hconf : ∀ d ∈ docs, ∃ ps rs ts, Conforms d ps rs ts ∧ ∀ p ∈ ps, 2 ≤ p.length) :
    DrawSafe (parameter_callback st docs).1.detector_ :=
  drawSafe_of_defaultEngine _
    (defaultEngine_loadDocuments docs hconf _
      ⟨rfl, rfl, fun kv hkv => absurd hkv (List.not_mem_nil kv)⟩)

end Linemod
